import Mathlib

/-!
Shallow embedding of the trace cross-validation checker
`src/tracer/qemu/check_trace.py` (ChampSim repository).

The checker parses a trusted Spike reference log and a candidate ChampSim
debug trace into instruction records, walks both sequences with two cursors,
emits SYNC warnings on misalignment (advancing only the candidate cursor),
and on matched pairs runs three semantic checks (branch-taken inference,
load addresses, store addresses) honouring an MMIO exclusion list.
Machine integers in the source are Python unbounded ints, so `Nat` is used
throughout.  File input is modelled as a list of lines (lists of characters).
-/

namespace ChampSimCheck

/-- Diagnostic kinds emitted by the checker (`[SYNC]`, `[BRANCH_TAKEN]`,
`[SRC_MEM]`, `[DST_MEM]` lines in the source). -/
inductive Diag where
  | SYNC
  | BRANCH_TAKEN
  | SRC_MEM
  | DST_MEM
deriving DecidableEq, Repr

/-- `SpikeInsn` dataclass: one parsed reference-log instruction. -/
structure SpikeInsn where
  ip : Nat
  load_addr : Option Nat := none
  store_addr : Option Nat := none
deriving DecidableEq, Repr

/-- `TraceInsn` dataclass: one parsed candidate-trace instruction.
`is_branch` / `branch_taken` are the parsed decimal digits (the source keeps
them as ints and uses Python truthiness, i.e. `≠ 0`). -/
structure TraceInsn where
  ip : Nat
  is_branch : Nat
  branch_taken : Nat
  dst_mem : List Nat := []
  src_mem : List Nat := []
deriving DecidableEq, Repr

/-- `MMIO_REGIONS`: half-open address intervals the QEMU plugin cannot
observe (UART0, VIRT_TEST, CLINT, PLIC). -/
def MMIO_REGIONS : List (Nat × Nat) :=
  [(0x10000000, 0x10000100),
   (0x00100000, 0x00100010),
   (0x02000000, 0x0200FFFF),
   (0x0C000000, 0x0FFFFFFF)]

/-- `is_mmio(addr)`: membership of `addr` in some configured half-open
interval `[lo, hi)`. -/
def is_mmio (addr : Nat) : Bool :=
  MMIO_REGIONS.any (fun r => decide (r.1 ≤ addr ∧ addr < r.2))

/-- The `spike_taken` value computed for a matched pair: `1` exactly when a
next reference instruction exists and its pc is neither `ip + 4` nor
`ip + 2`; otherwise `0` (the fall-through branch of the source never changes
`spike_taken`; the `spike_is_branch` variable it sets is never read
afterwards and is omitted as dead code). -/
def spikeTaken (ip : Nat) (next_ip : Option Nat) : Nat :=
  match next_ip with
  | none => 0
  | some nip => if nip ≠ ip + 4 ∧ nip ≠ ip + 2 then 1 else 0

/-- The ordered list of error diagnostics one matched pair `(sp, tr)`
produces, with `next_ip` the pc of the following reference instruction (if
any): the branch-taken check, then the load (`src_mem`) check with MMIO
exclusion, then the store (`dst_mem`) check with MMIO exclusion, exactly as
in the body of `check`. -/
def pairErrors (sp : SpikeInsn) (next_ip : Option Nat) (tr : TraceInsn) : List Diag :=
  (if tr.is_branch ≠ 0 ∧ tr.branch_taken ≠ spikeTaken sp.ip next_ip
     then [Diag.BRANCH_TAKEN] else [])
  ++ (match sp.load_addr with
      | some a => if ¬ is_mmio a = true ∧ a ∉ tr.src_mem then [Diag.SRC_MEM] else []
      | none => if tr.src_mem ≠ [] then [Diag.SRC_MEM] else [])
  ++ (match sp.store_addr with
      | some a => if ¬ is_mmio a = true ∧ a ∉ tr.dst_mem then [Diag.DST_MEM] else []
      | none => if tr.dst_mem ≠ [] then [Diag.DST_MEM] else [])

/-- Loop-cursor state of `check`: reference index `si`, candidate index
`ti`, and the three counters. -/
structure CheckState where
  si : Nat
  ti : Nat
  checked : Nat
  errors : Nat
  warnings : Nat
deriving DecidableEq, Repr

/-- Outcome of one iteration of the `while` loop of `check`: either the
loop terminates (`halt`, covering sequence exhaustion, the cap `break`, and
the stop-on-error `break`s) or it continues with an updated state; both
carry the diagnostics printed during the iteration. -/
inductive StepRes where
  | halt (s : CheckState) (ds : List Diag)
  | cont (s : CheckState) (ds : List Diag)
deriving DecidableEq, Repr

/-- One iteration of the `while` loop of `check`:
exit when a cursor is out of bounds; `break` when `max_insns` is nonzero
and `checked >= max_insns`; on an ip mismatch emit SYNC, bump `warnings`,
advance only `ti`; on a match bump `checked`, run the three checks
(`pairErrors`), and either `break` after the first error (stop-on-error)
or count all errors and advance both cursors. -/
def checkStep (spike_insns : List SpikeInsn) (trace_insns : List TraceInsn)
    (max_insns : Nat) (stop_on_error : Bool) (s : CheckState) : StepRes :=
  match (spike_insns[s.si]?), (trace_insns[s.ti]?) with
  | some sp, some tr =>
    if max_insns ≠ 0 ∧ max_insns ≤ s.checked then
      .halt s []
    else if sp.ip ≠ tr.ip then
      .cont ⟨s.si, s.ti + 1, s.checked, s.errors, s.warnings + 1⟩ [Diag.SYNC]
    else
      match stop_on_error, pairErrors sp ((spike_insns[s.si + 1]?).map SpikeInsn.ip) tr with
      | true, e :: _ =>
        .halt ⟨s.si, s.ti, s.checked + 1, s.errors + 1, s.warnings⟩ [e]
      | _, errs =>
        .cont ⟨s.si + 1, s.ti + 1, s.checked + 1, s.errors + errs.length, s.warnings⟩ errs
  | _, _ => .halt s []

/-- The `while` loop of `check`, driven by `checkStep`.  The `Nat` argument
is pure recursion fuel: every continuing iteration advances `ti` by one (see
`checkStep_cont_ti`), so any fuel `≥ trace_insns.length - s.ti` computes the exact
fixpoint of the loop (`checkRunF_stable`); at fuel `0` the loop state
already has `ti` out of bounds and the `(s, [])` result coincides with the
out-of-bounds `halt`. -/
def checkRunF (spike_insns : List SpikeInsn) (trace_insns : List TraceInsn)
    (max_insns : Nat) (stop_on_error : Bool) : Nat → CheckState → CheckState × List Diag
  | 0, s => (s, [])
  | n + 1, s =>
    match checkStep spike_insns trace_insns max_insns stop_on_error s with
    | .halt s' ds => (s', ds)
    | .cont s' ds =>
      let r := checkRunF spike_insns trace_insns max_insns stop_on_error n s'
      (r.1, ds ++ r.2)

/-- `check(spike_insns, trace_insns, max_insns, stop_on_error)`: the whole
loop from the initial state; returns the final counters/cursors and the
stream of diagnostics in emission order. -/
def check (spike_insns : List SpikeInsn) (trace_insns : List TraceInsn)
    (max_insns : Nat) (stop_on_error : Bool) : CheckState × List Diag :=
  checkRunF spike_insns trace_insns max_insns stop_on_error trace_insns.length ⟨0, 0, 0, 0, 0⟩

/-- The summary `Result:` line of `check`. -/
def resultOf (spike_insns : List SpikeInsn) (trace_insns : List TraceInsn)
    (max_insns : Nat) (stop_on_error : Bool) : String :=
  if (check spike_insns trace_insns max_insns stop_on_error).1.errors = 0 then "PASS" else "FAIL"

/-- `main`'s exit signal: `sys.exit(0 if rc == 0 else 1)` where `rc` is the
error count returned by `check`. -/
def exitCodeOf (spike_insns : List SpikeInsn) (trace_insns : List TraceInsn)
    (max_insns : Nat) (stop_on_error : Bool) : Nat :=
  if (check spike_insns trace_insns max_insns stop_on_error).1.errors = 0 then 0 else 1

/-! ### Parsers

The two line grammars (`SPIKE_RE`, `MEM_RE`, `DEBUG_RE`) are embedded as
character-level matchers.  Every repetition in those patterns (`\s+`, `\d+`,
`[0-9a-f]+`) is followed by a character outside its own class, so greedy
matching without backtracking is exact.  A file is modelled as the list of
its lines. -/

/-- Python `\s` on the ASCII inputs at hand: space, tab, newline, carriage
return, vertical tab, form feed. -/
def isSpaceCh (c : Char) : Bool :=
  c = ' ' ∨ c = '\t' ∨ c = '\n' ∨ c = '\r' ∨ c = Char.ofNat 11 ∨ c = Char.ofNat 12

/-- Regex `\d`: an ASCII decimal digit. -/
def isDigitCh (c : Char) : Bool := '0' ≤ c ∧ c ≤ '9'

/-- Regex `[0-9a-f]`: a lowercase hexadecimal digit. -/
def isHexCh (c : Char) : Bool := ('0' ≤ c ∧ c ≤ '9') ∨ ('a' ≤ c ∧ c ≤ 'f')

/-- Value of one hexadecimal digit. -/
def hexVal (c : Char) : Nat :=
  if '0' ≤ c ∧ c ≤ '9' then c.toNat - 48 else c.toNat - 87

/-- `int(digits, 16)` on a list of hex digits. -/
def hexToNat (cs : List Char) : Nat :=
  cs.foldl (fun n c => 16 * n + hexVal c) 0

/-- Python `str.strip()`: drop leading and trailing whitespace. -/
def stripList (cs : List Char) : List Char :=
  ((cs.dropWhile isSpaceCh).reverse.dropWhile isSpaceCh).reverse

/-- Consume an exact literal prefix, returning the remainder. -/
def eatLit : List Char → List Char → Option (List Char)
  | [], cs => some cs
  | _ :: _, [] => none
  | l :: ls, c :: cs => if c = l then eatLit ls cs else none

/-- Consume one-or-more characters of class `p` (a `+` repetition),
returning the consumed token and the remainder; fails on zero matches. -/
def eatPlus (p : Char → Bool) (cs : List Char) : Option (List Char × List Char) :=
  match cs.span p with
  | (tok, rest) => if tok.isEmpty then none else some (tok, rest)

/-- Consume exactly one decimal digit (the `(\d)` captures). -/
def eatDigit : List Char → Option (Nat × List Char)
  | [] => none
  | c :: cs => if isDigitCh c then some (c.toNat - 48, cs) else none

/-- `SPIKE_RE.match` on a (stripped) line:
`core\s+\d+:\s+\d+\s+(0x[0-9a-f]+)\s+\(0x[0-9a-f]+\)(.*)`.
Returns the ip value (group 1) and the rest of the line (group 2). -/
def matchSpike (cs : List Char) : Option (Nat × List Char) :=
  match eatLit "core".toList cs with
  | none => none
  | some cs =>
  match eatPlus isSpaceCh cs with
  | none => none
  | some (_, cs) =>
  match eatPlus isDigitCh cs with
  | none => none
  | some (_, cs) =>
  match eatLit ":".toList cs with
  | none => none
  | some cs =>
  match eatPlus isSpaceCh cs with
  | none => none
  | some (_, cs) =>
  match eatPlus isDigitCh cs with
  | none => none
  | some (_, cs) =>
  match eatPlus isSpaceCh cs with
  | none => none
  | some (_, cs) =>
  match eatLit "0x".toList cs with
  | none => none
  | some cs =>
  match eatPlus isHexCh cs with
  | none => none
  | some (ip, cs) =>
  match eatPlus isSpaceCh cs with
  | none => none
  | some (_, cs) =>
  match eatLit "(0x".toList cs with
  | none => none
  | some cs =>
  match eatPlus isHexCh cs with
  | none => none
  | some (_, cs) =>
  match eatLit ")".toList cs with
  | none => none
  | some cs => some (hexToNat ip, cs)

/-- The optional tail `(?:\s+(0x[0-9a-f]+))?` of `MEM_RE`: the write-data
value, if present. -/
def matchMemData (cs : List Char) : Option Nat :=
  match eatPlus isSpaceCh cs with
  | none => none
  | some (_, cs) =>
  match eatLit "0x".toList cs with
  | none => none
  | some cs =>
  match eatPlus isHexCh cs with
  | none => none
  | some (d, _) => some (hexToNat d)

/-- `MEM_RE` tried at one fixed start position:
`mem\s+(0x[0-9a-f]+)(?:\s+(0x[0-9a-f]+))?`.
Returns the address (group 1) and the optional write-data value (group 2). -/
def matchMemAt (cs : List Char) : Option (Nat × Option Nat) :=
  match eatLit "mem".toList cs with
  | none => none
  | some cs =>
  match eatPlus isSpaceCh cs with
  | none => none
  | some (_, cs) =>
  match eatLit "0x".toList cs with
  | none => none
  | some cs =>
  match eatPlus isHexCh cs with
  | none => none
  | some (addr, cs) => some (hexToNat addr, matchMemData cs)

/-- `MEM_RE.search`: try `matchMemAt` at each start position left to right,
returning the leftmost match. -/
def searchMem : List Char → Option (Nat × Option Nat)
  | [] => none
  | c :: cs =>
    match matchMemAt (c :: cs) with
    | some r => some r
    | none => searchMem cs

/-- The body of the `parse_spike` loop for one raw line: strip, match
`SPIKE_RE` (else drop the line), then search the remainder for the first
`mem` clause — two values mean a store, one value a load. -/
def parseSpikeLine (line : List Char) : Option SpikeInsn :=
  match matchSpike (stripList line) with
  | none => none
  | some (ip, rest) =>
    match searchMem rest with
    | none => some ⟨ip, none, none⟩
    | some (addr, none) => some ⟨ip, some addr, none⟩
    | some (addr, some _) => some ⟨ip, none, some addr⟩

/-- `parse_spike`: the matching lines of the file, in order. -/
def parse_spike (lines : List (List Char)) : List SpikeInsn :=
  lines.filterMap parseSpikeLine

/-- The register portion
`dst_regs=\[(\d+),(\d+)\]\s+src_regs=\[(\d+),(\d+),(\d+),(\d+)\]\s+` of
`DEBUG_RE`; the captured register numbers are never read by the source, so
only the remainder is returned. -/
def matchDebugRegs (cs : List Char) : Option (List Char) :=
  match eatLit "dst_regs=[".toList cs with
  | none => none
  | some cs =>
  match eatPlus isDigitCh cs with
  | none => none
  | some (_, cs) =>
  match eatLit ",".toList cs with
  | none => none
  | some cs =>
  match eatPlus isDigitCh cs with
  | none => none
  | some (_, cs) =>
  match eatLit "]".toList cs with
  | none => none
  | some cs =>
  match eatPlus isSpaceCh cs with
  | none => none
  | some (_, cs) =>
  match eatLit "src_regs=[".toList cs with
  | none => none
  | some cs =>
  match eatPlus isDigitCh cs with
  | none => none
  | some (_, cs) =>
  match eatLit ",".toList cs with
  | none => none
  | some cs =>
  match eatPlus isDigitCh cs with
  | none => none
  | some (_, cs) =>
  match eatLit ",".toList cs with
  | none => none
  | some cs =>
  match eatPlus isDigitCh cs with
  | none => none
  | some (_, cs) =>
  match eatLit ",".toList cs with
  | none => none
  | some cs =>
  match eatPlus isDigitCh cs with
  | none => none
  | some (_, cs) =>
  match eatLit "]".toList cs with
  | none => none
  | some cs =>
  match eatPlus isSpaceCh cs with
  | none => none
  | some (_, cs) => some cs

/-- The memory portion
`dst_mem=\[(0x..),(0x..)\]\s+src_mem=\[(0x..),(0x..),(0x..),(0x..)\]` of
`DEBUG_RE`: the two store slots and four load slots (groups 10–15). -/
def matchDebugMem (cs : List Char) : Option (Nat × Nat × Nat × Nat × Nat × Nat) :=
  match eatLit "dst_mem=[0x".toList cs with
  | none => none
  | some cs =>
  match eatPlus isHexCh cs with
  | none => none
  | some (d1, cs) =>
  match eatLit ",0x".toList cs with
  | none => none
  | some cs =>
  match eatPlus isHexCh cs with
  | none => none
  | some (d2, cs) =>
  match eatLit "]".toList cs with
  | none => none
  | some cs =>
  match eatPlus isSpaceCh cs with
  | none => none
  | some (_, cs) =>
  match eatLit "src_mem=[0x".toList cs with
  | none => none
  | some cs =>
  match eatPlus isHexCh cs with
  | none => none
  | some (s1, cs) =>
  match eatLit ",0x".toList cs with
  | none => none
  | some cs =>
  match eatPlus isHexCh cs with
  | none => none
  | some (s2, cs) =>
  match eatLit ",0x".toList cs with
  | none => none
  | some cs =>
  match eatPlus isHexCh cs with
  | none => none
  | some (s3, cs) =>
  match eatLit ",0x".toList cs with
  | none => none
  | some cs =>
  match eatPlus isHexCh cs with
  | none => none
  | some (s4, cs) =>
  match eatLit "]".toList cs with
  | none => none
  | some _ =>
    some (hexToNat d1, hexToNat d2, hexToNat s1, hexToNat s2, hexToNat s3, hexToNat s4)

/-- `DEBUG_RE.match` on a (stripped) line; register fields are consumed but
discarded, mem slots are captured (captures include the `0x` prefix, which
`int(_, 16)` accepts), and zero-valued slots are filtered out when the
record is built. -/
def matchDebug (cs : List Char) : Option TraceInsn :=
  match eatLit "ip=0x".toList cs with
  | none => none
  | some cs =>
  match eatPlus isHexCh cs with
  | none => none
  | some (ip, cs) =>
  match eatPlus isSpaceCh cs with
  | none => none
  | some (_, cs) =>
  match eatLit "branch=".toList cs with
  | none => none
  | some cs =>
  match eatDigit cs with
  | none => none
  | some (b, cs) =>
  match eatPlus isSpaceCh cs with
  | none => none
  | some (_, cs) =>
  match eatLit "taken=".toList cs with
  | none => none
  | some cs =>
  match eatDigit cs with
  | none => none
  | some (t, cs) =>
  match eatPlus isSpaceCh cs with
  | none => none
  | some (_, cs) =>
  match matchDebugRegs cs with
  | none => none
  | some cs =>
  match matchDebugMem cs with
  | none => none
  | some (d1, d2, s1, s2, s3, s4) =>
    some { ip := hexToNat ip
           is_branch := b
           branch_taken := t
           dst_mem := ([d1, d2].filter (fun a => a ≠ 0))
           src_mem := ([s1, s2, s3, s4].filter (fun a => a ≠ 0)) }

/-- The body of the `parse_debug` loop for one raw line: skip `#` comment
lines (tested on the raw line), then strip and match `DEBUG_RE` (else drop
the line); zero-valued mem slots are filtered out. -/
def parseDebugLine (line : List Char) : Option TraceInsn :=
  if line.head? = some '#' then none
  else matchDebug (stripList line)

/-- `parse_debug`: the matching non-comment lines of the file, in order. -/
def parse_debug (lines : List (List Char)) : List TraceInsn :=
  lines.filterMap parseDebugLine

/-! ### Basic lemmas about one loop iteration -/

theorem checkStep_oob (spike_insns : List SpikeInsn) (trace_insns : List TraceInsn)
    (max_insns : Nat) (stop_on_error : Bool) (s : CheckState)
    (h : spike_insns[s.si]? = none ∨ trace_insns[s.ti]? = none) :
    checkStep spike_insns trace_insns max_insns stop_on_error s = .halt s [] := by
  unfold checkStep
  rcases hsp : spike_insns[s.si]? with _ | a <;>
    rcases htr : trace_insns[s.ti]? with _ | b <;> simp_all

theorem checkStep_cap (spike_insns : List SpikeInsn) (trace_insns : List TraceInsn)
    (max_insns : Nat) (stop_on_error : Bool) (s : CheckState) (sp : SpikeInsn) (tr : TraceInsn)
    (hsp : spike_insns[s.si]? = some sp) (htr : trace_insns[s.ti]? = some tr)
    (hmax : max_insns ≠ 0) (hcap : max_insns ≤ s.checked) :
    checkStep spike_insns trace_insns max_insns stop_on_error s = .halt s [] := by
  unfold checkStep
  rw [hsp, htr]
  simp [hmax, hcap]

theorem checkStep_sync (spike_insns : List SpikeInsn) (trace_insns : List TraceInsn)
    (max_insns : Nat) (stop_on_error : Bool) (s : CheckState) (sp : SpikeInsn) (tr : TraceInsn)
    (hsp : spike_insns[s.si]? = some sp) (htr : trace_insns[s.ti]? = some tr)
    (hcap : ¬(max_insns ≠ 0 ∧ max_insns ≤ s.checked)) (hip : sp.ip ≠ tr.ip) :
    checkStep spike_insns trace_insns max_insns stop_on_error s =
      .cont ⟨s.si, s.ti + 1, s.checked, s.errors, s.warnings + 1⟩ [Diag.SYNC] := by
  unfold checkStep
  rw [hsp, htr]
  simp [hcap, hip]

theorem checkStep_match_stop (spike_insns : List SpikeInsn) (trace_insns : List TraceInsn)
    (max_insns : Nat) (s : CheckState) (sp : SpikeInsn) (tr : TraceInsn) (e : Diag) (rest : List Diag)
    (hsp : spike_insns[s.si]? = some sp) (htr : trace_insns[s.ti]? = some tr)
    (hcap : ¬(max_insns ≠ 0 ∧ max_insns ≤ s.checked)) (hip : sp.ip = tr.ip)
    (herrs : pairErrors sp ((spike_insns[s.si + 1]?).map SpikeInsn.ip) tr = e :: rest) :
    checkStep spike_insns trace_insns max_insns true s =
      .halt ⟨s.si, s.ti, s.checked + 1, s.errors + 1, s.warnings⟩ [e] := by
  unfold checkStep
  rw [hsp, htr]
  simp [hcap, hip, herrs]

theorem checkStep_match_nostop (spike_insns : List SpikeInsn) (trace_insns : List TraceInsn)
    (max_insns : Nat) (s : CheckState) (sp : SpikeInsn) (tr : TraceInsn)
    (hsp : spike_insns[s.si]? = some sp) (htr : trace_insns[s.ti]? = some tr)
    (hcap : ¬(max_insns ≠ 0 ∧ max_insns ≤ s.checked)) (hip : sp.ip = tr.ip) :
    checkStep spike_insns trace_insns max_insns false s =
      .cont ⟨s.si + 1, s.ti + 1, s.checked + 1,
             s.errors + (pairErrors sp ((spike_insns[s.si + 1]?).map SpikeInsn.ip) tr).length,
             s.warnings⟩
        (pairErrors sp ((spike_insns[s.si + 1]?).map SpikeInsn.ip) tr) := by
  unfold checkStep
  rw [hsp, htr]
  rcases herrs : pairErrors sp ((spike_insns[s.si + 1]?).map SpikeInsn.ip) tr with _ | ⟨e, rest⟩ <;>
    simp [hcap, hip, herrs]

theorem checkStep_match_noerr (spike_insns : List SpikeInsn) (trace_insns : List TraceInsn)
    (max_insns : Nat) (stop_on_error : Bool) (s : CheckState) (sp : SpikeInsn) (tr : TraceInsn)
    (hsp : spike_insns[s.si]? = some sp) (htr : trace_insns[s.ti]? = some tr)
    (hcap : ¬(max_insns ≠ 0 ∧ max_insns ≤ s.checked)) (hip : sp.ip = tr.ip)
    (herrs : pairErrors sp ((spike_insns[s.si + 1]?).map SpikeInsn.ip) tr = []) :
    checkStep spike_insns trace_insns max_insns stop_on_error s =
      .cont ⟨s.si + 1, s.ti + 1, s.checked + 1, s.errors, s.warnings⟩ [] := by
  unfold checkStep
  rw [hsp, htr]
  cases stop_on_error <;> simp [hcap, hip, herrs]

theorem checkStep_cont_ti (spike_insns : List SpikeInsn) (trace_insns : List TraceInsn)
    (max_insns : Nat) (stop_on_error : Bool) (s s' : CheckState) (ds : List Diag)
    (h : checkStep spike_insns trace_insns max_insns stop_on_error s = .cont s' ds) :
    s.ti < trace_insns.length ∧ s'.ti = s.ti + 1 := by
  unfold checkStep at h
  rcases hsp : spike_insns[s.si]? with _ | a <;> rw [hsp] at h <;>
    rcases htr : trace_insns[s.ti]? with _ | b <;> rw [htr] at h
  · cases h
  · cases h
  · cases h
  · have hlt : s.ti < trace_insns.length := by
      by_contra hge
      rw [List.getElem?_eq_none (by omega)] at htr
      cases htr
    refine ⟨hlt, ?_⟩
    by_cases hcap : max_insns ≠ 0 ∧ max_insns ≤ s.checked
    · simp [hcap] at h
    · by_cases hip : a.ip ≠ b.ip
      · simp [hcap, hip] at h
        rw [← h.1]
      · rcases herrs : pairErrors a ((spike_insns[s.si + 1]?).map SpikeInsn.ip) b with _ | ⟨e, rest⟩ <;>
          cases stop_on_error <;> simp [hcap, hip, herrs] at h <;> rw [← h.1]

theorem checkStep_halt_si (spike_insns : List SpikeInsn) (trace_insns : List TraceInsn)
    (max_insns : Nat) (stop_on_error : Bool) (s s' : CheckState) (ds : List Diag)
    (h : checkStep spike_insns trace_insns max_insns stop_on_error s = .halt s' ds) :
    s'.si = s.si := by
  unfold checkStep at h
  rcases hsp : spike_insns[s.si]? with _ | a <;> rw [hsp] at h <;>
    rcases htr : trace_insns[s.ti]? with _ | b <;> rw [htr] at h
  · cases h; rfl
  · cases h; rfl
  · cases h; rfl
  · by_cases hcap : max_insns ≠ 0 ∧ max_insns ≤ s.checked
    · simp [hcap] at h
      rw [← h.1]
    · by_cases hip : a.ip ≠ b.ip
      · simp [hcap, hip] at h
      · rcases herrs : pairErrors a ((spike_insns[s.si + 1]?).map SpikeInsn.ip) b with _ | ⟨e, rest⟩ <;>
          cases stop_on_error <;> simp [hcap, hip, herrs] at h <;> rw [← h.1]

/-- Any fuel at least `trace_insns.length - s.ti` computes the loop's true
fixpoint: one more unit of fuel never changes the result.  This justifies
`check`'s use of `trace_insns.length` as fuel from the initial state. -/
theorem checkRunF_stable (spike_insns : List SpikeInsn) (trace_insns : List TraceInsn)
    (max_insns : Nat) (stop_on_error : Bool) :
    ∀ n (s : CheckState), trace_insns.length - s.ti ≤ n →
      checkRunF spike_insns trace_insns max_insns stop_on_error n s =
        checkRunF spike_insns trace_insns max_insns stop_on_error (n + 1) s := by
  intro n
  induction n with
  | zero =>
    intro s hs
    have hnone : trace_insns[s.ti]? = none := List.getElem?_eq_none (by omega)
    simp [checkRunF, checkStep_oob _ _ _ _ _ (Or.inr hnone)]
  | succ n ih =>
    intro s hs
    show (match checkStep spike_insns trace_insns max_insns stop_on_error s with
          | .halt s' ds => (s', ds)
          | .cont s' ds => ((checkRunF spike_insns trace_insns max_insns stop_on_error n s').1,
              ds ++ (checkRunF spike_insns trace_insns max_insns stop_on_error n s').2)) =
         (match checkStep spike_insns trace_insns max_insns stop_on_error s with
          | .halt s' ds => (s', ds)
          | .cont s' ds => ((checkRunF spike_insns trace_insns max_insns stop_on_error (n + 1) s').1,
              ds ++ (checkRunF spike_insns trace_insns max_insns stop_on_error (n + 1) s').2))
    cases h : checkStep spike_insns trace_insns max_insns stop_on_error s with
    | halt s' ds => rfl
    | cont s' ds =>
      have hti := checkStep_cont_ti _ _ _ _ _ _ _ h
      show ((checkRunF spike_insns trace_insns max_insns stop_on_error n s').1,
            ds ++ (checkRunF spike_insns trace_insns max_insns stop_on_error n s').2) =
           ((checkRunF spike_insns trace_insns max_insns stop_on_error (n + 1) s').1,
            ds ++ (checkRunF spike_insns trace_insns max_insns stop_on_error (n + 1) s').2)
      rw [ih s' (by omega)]

/-- The SYNC diagnostic is only ever produced by the misalignment branch,
never by the per-pair checks. -/
theorem sync_not_mem_pairErrors (sp : SpikeInsn) (nip : Option Nat) (tr : TraceInsn) :
    Diag.SYNC ∉ pairErrors sp nip tr := by
  unfold pairErrors
  rcases sp.load_addr with _ | a <;> rcases sp.store_addr with _ | b <;>
    split_ifs <;> simp_all

/-- BRANCH_TAKEN appears in the per-pair diagnostics exactly when the
candidate claims a branch and its taken bit disagrees with the inferred
one; the memory segments never produce it. -/
theorem branch_mem_pairErrors (sp : SpikeInsn) (nip : Option Nat) (tr : TraceInsn) :
    Diag.BRANCH_TAKEN ∈ pairErrors sp nip tr ↔
      tr.is_branch ≠ 0 ∧ tr.branch_taken ≠ spikeTaken sp.ip nip := by
  unfold pairErrors
  rcases sp.load_addr with _ | a <;> rcases sp.store_addr with _ | b <;>
    split_ifs <;> simp_all

/-- Unfolding of one unit of fuel. -/
theorem checkRunF_succ (spike_insns : List SpikeInsn) (trace_insns : List TraceInsn)
    (max_insns : Nat) (stop_on_error : Bool) (n : Nat) (s : CheckState) :
    checkRunF spike_insns trace_insns max_insns stop_on_error (n + 1) s =
      match checkStep spike_insns trace_insns max_insns stop_on_error s with
      | .halt s' ds => (s', ds)
      | .cont s' ds =>
        ((checkRunF spike_insns trace_insns max_insns stop_on_error n s').1,
         ds ++ (checkRunF spike_insns trace_insns max_insns stop_on_error n s').2) := rfl

/-- Exhaustive case analysis of one loop iteration: it either exits with
the state unchanged (cursor out of bounds, or the cap reached), performs a
SYNC skip, breaks on the first error of a matched pair (stop-on-error), or
finishes a matched pair and continues. -/
theorem checkStep_cases (spike_insns : List SpikeInsn) (trace_insns : List TraceInsn)
    (max_insns : Nat) (stop_on_error : Bool) (s : CheckState) :
    (checkStep spike_insns trace_insns max_insns stop_on_error s = .halt s [] ∧
      (spike_insns[s.si]? = none ∨ trace_insns[s.ti]? = none ∨
        (max_insns ≠ 0 ∧ max_insns ≤ s.checked)))
    ∨ (∃ sp tr, spike_insns[s.si]? = some sp ∧ trace_insns[s.ti]? = some tr ∧
        ¬(max_insns ≠ 0 ∧ max_insns ≤ s.checked) ∧ sp.ip ≠ tr.ip ∧
        checkStep spike_insns trace_insns max_insns stop_on_error s =
          .cont ⟨s.si, s.ti + 1, s.checked, s.errors, s.warnings + 1⟩ [Diag.SYNC])
    ∨ (∃ sp tr e rest, spike_insns[s.si]? = some sp ∧ trace_insns[s.ti]? = some tr ∧
        ¬(max_insns ≠ 0 ∧ max_insns ≤ s.checked) ∧ sp.ip = tr.ip ∧ stop_on_error = true ∧
        pairErrors sp ((spike_insns[s.si + 1]?).map SpikeInsn.ip) tr = e :: rest ∧
        checkStep spike_insns trace_insns max_insns stop_on_error s =
          .halt ⟨s.si, s.ti, s.checked + 1, s.errors + 1, s.warnings⟩ [e])
    ∨ (∃ sp tr, spike_insns[s.si]? = some sp ∧ trace_insns[s.ti]? = some tr ∧
        ¬(max_insns ≠ 0 ∧ max_insns ≤ s.checked) ∧ sp.ip = tr.ip ∧
        checkStep spike_insns trace_insns max_insns stop_on_error s =
          .cont ⟨s.si + 1, s.ti + 1, s.checked + 1,
                 s.errors + (pairErrors sp ((spike_insns[s.si + 1]?).map SpikeInsn.ip) tr).length,
                 s.warnings⟩
            (pairErrors sp ((spike_insns[s.si + 1]?).map SpikeInsn.ip) tr)) := by
  rcases hsp : spike_insns[s.si]? with _ | sp
  · exact Or.inl ⟨checkStep_oob _ _ _ _ _ (Or.inl hsp), Or.inl rfl⟩
  · rcases htr : trace_insns[s.ti]? with _ | tr
    · exact Or.inl ⟨checkStep_oob _ _ _ _ _ (Or.inr htr), Or.inr (Or.inl rfl)⟩
    · by_cases hcap : max_insns ≠ 0 ∧ max_insns ≤ s.checked
      · exact Or.inl ⟨checkStep_cap _ _ _ _ _ _ _ hsp htr hcap.1 hcap.2,
          Or.inr (Or.inr hcap)⟩
      · by_cases hip : sp.ip = tr.ip
        · rcases herrs : pairErrors sp ((spike_insns[s.si + 1]?).map SpikeInsn.ip) tr
            with _ | ⟨e, rest⟩
          · refine Or.inr (Or.inr (Or.inr ⟨sp, tr, rfl, rfl, hcap, hip, ?_⟩))
            rw [checkStep_match_noerr _ _ _ _ _ _ _ hsp htr hcap hip herrs, herrs]
            simp
          · cases stop_on_error
            · exact Or.inr (Or.inr (Or.inr ⟨sp, tr, rfl, rfl, hcap, hip,
                checkStep_match_nostop _ _ _ _ _ _ hsp htr hcap hip⟩))
            · exact Or.inr (Or.inr (Or.inl ⟨sp, tr, e, rest, rfl, rfl, hcap, hip, rfl, herrs,
                checkStep_match_stop _ _ _ _ _ _ _ _ hsp htr hcap hip herrs⟩))
        · exact Or.inr (Or.inl ⟨sp, tr, rfl, rfl, hcap, hip,
            checkStep_sync _ _ _ _ _ _ _ hsp htr hcap hip⟩)

/-- A run over streams that never share a pc at the compared positions:
while the reference cursor stays in bounds and no instruction has been
checked, every iteration is a SYNC skip, so the run consumes the whole
candidate remainder, emitting one SYNC per entry and touching nothing
else. -/
theorem checkRunF_desync (spike_insns : List SpikeInsn) (trace_insns : List TraceInsn)
    (max_insns : Nat) (stop_on_error : Bool)
    (hdisj : ∀ sp ∈ spike_insns, ∀ tr ∈ trace_insns, sp.ip ≠ tr.ip) :
    ∀ n (s : CheckState), trace_insns.length - s.ti ≤ n → s.ti ≤ trace_insns.length →
      s.si < spike_insns.length → s.checked = 0 →
      checkRunF spike_insns trace_insns max_insns stop_on_error n s =
        (⟨s.si, trace_insns.length, 0, s.errors,
          s.warnings + (trace_insns.length - s.ti)⟩,
         List.replicate (trace_insns.length - s.ti) Diag.SYNC) := by
  intro n
  induction n with
  | zero =>
    intro s h1 h2 h3 h4
    obtain ⟨si, ti, ck, er, wa⟩ := s
    simp only at h1 h2 h4
    subst h4
    have hlen : trace_insns.length = ti := by omega
    simp [checkRunF, hlen]
  | succ n ih =>
    intro s h1 h2 h3 h4
    obtain ⟨si, ti, ck, er, wa⟩ := s
    simp only at h1 h2 h3 h4
    subst h4
    by_cases hti : ti < trace_insns.length
    · have hsp : spike_insns[si]? = some spike_insns[si] := List.getElem?_eq_getElem h3
      have htr : trace_insns[ti]? = some trace_insns[ti] := List.getElem?_eq_getElem hti
      have hip : (spike_insns[si]).ip ≠ (trace_insns[ti]).ip :=
        hdisj _ (List.getElem_mem h3) _ (List.getElem_mem hti)
      have hcap : ¬(max_insns ≠ 0 ∧ max_insns ≤
          (CheckState.mk si ti 0 er wa).checked) := by
        rintro ⟨hm, hle⟩
        simp at hle
        omega
      rw [checkRunF_succ,
        checkStep_sync spike_insns trace_insns max_insns stop_on_error _ _ _ hsp htr hcap hip]
      show ((checkRunF spike_insns trace_insns max_insns stop_on_error n
              ⟨si, ti + 1, 0, er, wa + 1⟩).1,
            [Diag.SYNC] ++ (checkRunF spike_insns trace_insns max_insns stop_on_error n
              ⟨si, ti + 1, 0, er, wa + 1⟩).2) = _
      rw [ih ⟨si, ti + 1, 0, er, wa + 1⟩ (by simp; omega) (by simp; omega) h3 rfl]
      have hrep : trace_insns.length - ti = (trace_insns.length - (ti + 1)) + 1 := by omega
      rw [hrep, List.replicate_succ]
      simp [CheckState.mk.injEq, Prod.ext_iff]
      omega
    · have hlen : trace_insns.length = ti := by omega
      rw [checkRunF_succ, checkStep_oob _ _ _ _ _
        (Or.inr (List.getElem?_eq_none (by simp; omega)))]
      simp [hlen]

/-- `l[i]? = some a` forces `i` to be in bounds. -/
theorem getElem?_some_lt {A : Type} (l : List A) (i : Nat) (a : A)
    (h : l[i]? = some a) : i < l.length := by
  by_contra hge
  rw [List.getElem?_eq_none (by omega)] at h
  cases h

/-- With a nonzero cap `k`, the checked counter never exceeds `k`. -/
theorem checkRunF_checked_le (spike_insns : List SpikeInsn) (trace_insns : List TraceInsn)
    (k : Nat) (stop_on_error : Bool) (hk : k ≠ 0) :
    ∀ n (s : CheckState), s.checked ≤ k →
      (checkRunF spike_insns trace_insns k stop_on_error n s).1.checked ≤ k := by
  intro n
  induction n with
  | zero => intro s hs; exact hs
  | succ n ih =>
    intro s hs
    rw [checkRunF_succ]
    rcases checkStep_cases spike_insns trace_insns k stop_on_error s with
      ⟨heq, _⟩ |
      ⟨sp, tr, _, _, hcap, _, heq⟩ |
      ⟨sp, tr, e, rest, _, _, hcap, _, _, _, heq⟩ |
      ⟨sp, tr, _, _, hcap, _, heq⟩
    · rw [heq]; simpa using hs
    · rw [heq]; exact ih _ (by simpa using hs)
    · rw [heq]
      have hlt : ¬(k ≤ s.checked) := fun hle => hcap ⟨hk, hle⟩
      simpa using (by omega : s.checked + 1 ≤ k)
    · rw [heq]
      have hlt : ¬(k ≤ s.checked) := fun hle => hcap ⟨hk, hle⟩
      exact ih _ (by simp; omega)

/-- With no cap and stop-on-error off, the loop only terminates by
exhausting one of the two sequences. -/
theorem checkRunF_exhausts (spike_insns : List SpikeInsn) (trace_insns : List TraceInsn) :
    ∀ n (s : CheckState), trace_insns.length - s.ti ≤ n →
      spike_insns.length ≤ (checkRunF spike_insns trace_insns 0 false n s).1.si ∨
      trace_insns.length ≤ (checkRunF spike_insns trace_insns 0 false n s).1.ti := by
  intro n
  induction n with
  | zero =>
    intro s h
    right
    simpa using (by omega : trace_insns.length ≤ s.ti)
  | succ n ih =>
    intro s h
    rw [checkRunF_succ]
    rcases checkStep_cases spike_insns trace_insns 0 false s with
      ⟨heq, hreason⟩ |
      ⟨sp, tr, hsp, htr, _, _, heq⟩ |
      ⟨sp, tr, e, rest, _, _, _, _, hstop, _, heq⟩ |
      ⟨sp, tr, hsp, htr, _, _, heq⟩
    · rw [heq]
      show spike_insns.length ≤ s.si ∨ trace_insns.length ≤ s.ti
      rcases hreason with h1 | h1 | ⟨h0, _⟩
      · left
        by_contra hlt
        rw [List.getElem?_eq_getElem (by omega)] at h1
        cases h1
      · right
        by_contra hlt
        rw [List.getElem?_eq_getElem (by omega)] at h1
        cases h1
      · exact absurd h0 (by simp)
    · rw [heq]
      have hlt := getElem?_some_lt _ _ _ htr
      exact ih _ (by simp; omega)
    · cases hstop
    · rw [heq]
      have hlt := getElem?_some_lt _ _ _ htr
      exact ih _ (by simp; omega)

/-- Five reference instructions at consecutive pcs, no memory access. -/
def exampleRef5 : List SpikeInsn :=
  [⟨0x100, none, none⟩, ⟨0x104, none, none⟩, ⟨0x108, none, none⟩,
   ⟨0x10C, none, none⟩, ⟨0x110, none, none⟩]

/-- Five candidate instructions forming valid matched pairs with
`exampleRef5`. -/
def exampleCand5 : List TraceInsn :=
  [⟨0x100, 0, 0, [], []⟩, ⟨0x104, 0, 0, [], []⟩, ⟨0x108, 0, 0, [], []⟩,
   ⟨0x10C, 0, 0, [], []⟩, ⟨0x110, 0, 0, [], []⟩]

/-- Like `exampleCand5` but the second entry over-reports a load, so the
second matched pair carries one SRC_MEM error. -/
def exampleCand5bad : List TraceInsn :=
  [⟨0x100, 0, 0, [], []⟩, ⟨0x104, 0, 0, [], [0x2000]⟩, ⟨0x108, 0, 0, [], []⟩,
   ⟨0x10C, 0, 0, [], []⟩, ⟨0x110, 0, 0, [], []⟩]

/-! ### Claim theorems -/

/-- C1: Alignment invariant.  At any iteration of the checking loop with
both cursors in bounds and the cap not reached: on a pc mismatch exactly
one SYNC warning is emitted and only the candidate cursor `ti` advances; on
a pc match, whenever the loop continues both cursors advance together, the
checked count increases by exactly 1, and no SYNC is emitted; the reference
cursor `si` advances only on a true pc match; and no terminating iteration
moves the reference cursor. -/
theorem c1_alignment_step (spike_insns : List SpikeInsn) (trace_insns : List TraceInsn)
    (max_insns : Nat) (stop_on_error : Bool) (s : CheckState) (sp : SpikeInsn) (tr : TraceInsn)
    (hsp : spike_insns[s.si]? = some sp) (htr : trace_insns[s.ti]? = some tr)
    (hcap : ¬(max_insns ≠ 0 ∧ max_insns ≤ s.checked)) :
    (sp.ip ≠ tr.ip →
      checkStep spike_insns trace_insns max_insns stop_on_error s =
        .cont ⟨s.si, s.ti + 1, s.checked, s.errors, s.warnings + 1⟩ [Diag.SYNC])
    ∧ (sp.ip = tr.ip → ∀ s' ds,
        checkStep spike_insns trace_insns max_insns stop_on_error s = .cont s' ds →
        s'.si = s.si + 1 ∧ s'.ti = s.ti + 1 ∧ s'.checked = s.checked + 1 ∧ Diag.SYNC ∉ ds)
    ∧ (∀ s' ds, checkStep spike_insns trace_insns max_insns stop_on_error s = .cont s' ds →
        s.si < s'.si → sp.ip = tr.ip)
    ∧ (∀ s' ds, checkStep spike_insns trace_insns max_insns stop_on_error s = .halt s' ds →
        s'.si = s.si) := by
  refine ⟨fun hip => checkStep_sync _ _ _ _ _ _ _ hsp htr hcap hip, ?_, ?_, ?_⟩
  · intro hip s' ds hstep
    rcases herrs : pairErrors sp ((spike_insns[s.si + 1]?).map SpikeInsn.ip) tr with _ | ⟨e, rest⟩
    · rw [checkStep_match_noerr _ _ _ _ _ _ _ hsp htr hcap hip herrs] at hstep
      cases hstep
      simp
    · cases stop_on_error
      · rw [checkStep_match_nostop _ _ _ _ _ _ hsp htr hcap hip] at hstep
        cases hstep
        refine ⟨rfl, rfl, rfl, ?_⟩
        exact sync_not_mem_pairErrors _ _ _
      · rw [checkStep_match_stop _ _ _ _ _ _ _ _ hsp htr hcap hip herrs] at hstep
        cases hstep
  · intro s' ds hstep hsi
    by_contra hip
    rw [checkStep_sync _ _ _ _ _ _ _ hsp htr hcap hip] at hstep
    cases hstep
    exact absurd hsi (by simp)
  · exact fun s' ds h => checkStep_halt_si _ _ _ _ _ _ _ h

/-- Witness for C1 at a concrete mismatching pair: the SYNC step advances
only the candidate cursor and bumps the warning count. -/
theorem c1_alignment_step_witness :
    checkStep [⟨0x4, none, none⟩] [⟨0x8, 0, 0, [], []⟩] 0 false ⟨0, 0, 0, 0, 0⟩ =
      .cont ⟨0, 1, 0, 0, 1⟩ [Diag.SYNC] :=
  (c1_alignment_step [⟨0x4, none, none⟩] [⟨0x8, 0, 0, [], []⟩] 0 false ⟨0, 0, 0, 0, 0⟩
    ⟨0x4, none, none⟩ ⟨0x8, 0, 0, [], []⟩ (by decide) (by decide) (by decide)).1 (by decide)

/-- C2: Branch outcome inference.  For a matched pair with an existing next
reference pc `nip`, the inferred taken bit is 1 exactly when `nip` is
neither `pc + 4` nor `pc + 2` (else 0), a BRANCH_TAKEN error is emitted
exactly when the candidate claims a branch whose taken bit disagrees with
the inferred one, and on the spec's Example 2 (a jump to 0x200 after 0x104
with the candidate claiming branch=1 taken=0) exactly one BRANCH_TAKEN
error is produced and the exit code is 1. -/
theorem c2_branch_inference (sp : SpikeInsn) (nip : Nat) (tr : TraceInsn) :
    (spikeTaken sp.ip (some nip) =
      if nip ≠ sp.ip + 4 ∧ nip ≠ sp.ip + 2 then 1 else 0)
    ∧ (Diag.BRANCH_TAKEN ∈ pairErrors sp (some nip) tr ↔
        tr.is_branch ≠ 0 ∧ tr.branch_taken ≠ spikeTaken sp.ip (some nip))
    ∧ check [⟨0x100, none, none⟩, ⟨0x104, none, none⟩, ⟨0x200, none, none⟩]
        [⟨0x100, 0, 0, [], []⟩, ⟨0x104, 1, 0, [], []⟩] 0 false =
        (⟨2, 2, 2, 1, 0⟩, [Diag.BRANCH_TAKEN])
    ∧ exitCodeOf [⟨0x100, none, none⟩, ⟨0x104, none, none⟩, ⟨0x200, none, none⟩]
        [⟨0x100, 0, 0, [], []⟩, ⟨0x104, 1, 0, [], []⟩] 0 false = 1 :=
  ⟨rfl, branch_mem_pairErrors sp (some nip) tr, by decide, by decide⟩

/-- Witness for C2: a fall-through next pc with the candidate claiming
branch=1 taken=1 yields a BRANCH_TAKEN diagnostic. -/
theorem c2_branch_inference_witness :
    Diag.BRANCH_TAKEN ∈ pairErrors ⟨0x100, none, none⟩ (some 0x104) ⟨0x100, 1, 1, [], []⟩ :=
  (c2_branch_inference ⟨0x100, none, none⟩ 0x104 ⟨0x100, 1, 1, [], []⟩).2.1.mpr (by decide)

/-- C3: Load/store memory checks with MMIO exclusion, for one matched pair:
an MMIO reference load never yields SRC_MEM whatever the candidate holds; a
non-MMIO reference load absent from the candidate's load list yields
exactly one SRC_MEM; no reference load but a non-empty candidate load list
yields exactly one SRC_MEM; and symmetrically for stores with DST_MEM. -/
theorem c3_mem_checks (sp : SpikeInsn) (nip : Option Nat) (tr : TraceInsn) :
    (∀ a, sp.load_addr = some a → is_mmio a = true →
      Diag.SRC_MEM ∉ pairErrors sp nip tr)
    ∧ (∀ a, sp.load_addr = some a → is_mmio a = false → a ∉ tr.src_mem →
      (pairErrors sp nip tr).count Diag.SRC_MEM = 1)
    ∧ (sp.load_addr = none → tr.src_mem ≠ [] →
      (pairErrors sp nip tr).count Diag.SRC_MEM = 1)
    ∧ (∀ a, sp.store_addr = some a → is_mmio a = true →
      Diag.DST_MEM ∉ pairErrors sp nip tr)
    ∧ (∀ a, sp.store_addr = some a → is_mmio a = false → a ∉ tr.dst_mem →
      (pairErrors sp nip tr).count Diag.DST_MEM = 1)
    ∧ (sp.store_addr = none → tr.dst_mem ≠ [] →
      (pairErrors sp nip tr).count Diag.DST_MEM = 1) := by
  refine ⟨?_, ?_, ?_, ?_, ?_, ?_⟩
  · intro a ha hm
    unfold pairErrors
    rw [ha]
    rcases sp.store_addr with _ | b <;> split_ifs <;> simp_all
  · intro a ha hm hmem
    unfold pairErrors
    rw [ha]
    rcases sp.store_addr with _ | b <;> split_ifs <;> simp_all [List.count_append, List.count_cons, apply_ite (List.count Diag.SRC_MEM)]
  · intro ha hmem
    unfold pairErrors
    rw [ha]
    rcases sp.store_addr with _ | b <;> split_ifs <;> simp_all [List.count_append, List.count_cons, apply_ite (List.count Diag.SRC_MEM)]
  · intro a ha hm
    unfold pairErrors
    rw [ha]
    rcases sp.load_addr with _ | b <;> split_ifs <;> simp_all
  · intro a ha hm hmem
    unfold pairErrors
    rw [ha]
    rcases sp.load_addr with _ | b <;> split_ifs <;> simp_all [List.count_append, List.count_cons, apply_ite (List.count Diag.DST_MEM)]
  · intro ha hmem
    unfold pairErrors
    rw [ha]
    rcases sp.load_addr with _ | b <;> split_ifs <;> simp_all [List.count_append, List.count_cons, apply_ite (List.count Diag.DST_MEM)]

/-- Witness for C3 at concrete values: an MMIO load (UART0 base) produces
no SRC_MEM even though the candidate's list misses it, and a non-MMIO load
missing from the candidate produces exactly one SRC_MEM. -/
theorem c3_mem_checks_witness :
    Diag.SRC_MEM ∉ pairErrors ⟨0x100, some 0x10000000, none⟩ none ⟨0x100, 0, 0, [], []⟩
    ∧ (pairErrors ⟨0x100, some 0x2000, none⟩ none ⟨0x100, 0, 0, [], []⟩).count Diag.SRC_MEM = 1 :=
  ⟨(c3_mem_checks ⟨0x100, some 0x10000000, none⟩ none ⟨0x100, 0, 0, [], []⟩).1
      0x10000000 (by decide) (by decide),
   (c3_mem_checks ⟨0x100, some 0x2000, none⟩ none ⟨0x100, 0, 0, [], []⟩).2.1
      0x2000 (by decide) (by decide) (by decide)⟩

/-- C8: Verdict and exit signal.  For any inputs and options, the exit code
is 0 iff the accumulated error count is 0 (else it is 1), the summary
verdict is PASS iff the error count is 0, and two runs with equal error
counts get identical exit codes and verdicts whatever their warning counts
are. -/
theorem c8_verdict_exit (spike_insns : List SpikeInsn) (trace_insns : List TraceInsn)
    (max_insns : Nat) (stop_on_error : Bool) :
    (exitCodeOf spike_insns trace_insns max_insns stop_on_error = 0 ↔
      (check spike_insns trace_insns max_insns stop_on_error).1.errors = 0)
    ∧ (exitCodeOf spike_insns trace_insns max_insns stop_on_error = 0 ∨
       exitCodeOf spike_insns trace_insns max_insns stop_on_error = 1)
    ∧ (resultOf spike_insns trace_insns max_insns stop_on_error = "PASS" ↔
      (check spike_insns trace_insns max_insns stop_on_error).1.errors = 0)
    ∧ (∀ (spike' : List SpikeInsn) (trace' : List TraceInsn) (max' : Nat) (stop' : Bool),
        (check spike_insns trace_insns max_insns stop_on_error).1.errors =
          (check spike' trace' max' stop').1.errors →
        exitCodeOf spike_insns trace_insns max_insns stop_on_error =
          exitCodeOf spike' trace' max' stop'
        ∧ resultOf spike_insns trace_insns max_insns stop_on_error =
          resultOf spike' trace' max' stop') := by
  unfold exitCodeOf resultOf
  refine ⟨?_, ?_, ?_, ?_⟩
  · split_ifs with h <;> simp [h]
  · split_ifs <;> simp
  · split_ifs with h <;> simp [h]
  · intro spike' trace' max' stop' heq
    rw [heq]
    split_ifs <;> simp

/-- Witness for C8 at concrete inputs: an empty run exits 0 with verdict
PASS. -/
theorem c8_verdict_exit_witness :
    exitCodeOf [] [] 0 false = 0 ∧ resultOf [] [] 0 false = "PASS" :=
  ⟨(c8_verdict_exit [] [] 0 false).1.mpr (by decide),
   (c8_verdict_exit [] [] 0 false).2.2.1.mpr (by decide)⟩

/-- C5: Permanent desynchronization is not an error.  For a nonempty
reference sequence sharing no pc with the candidate sequence, the loop
emits exactly one SYNC warning per candidate entry, exhausts the candidate
sequence, terminates with checked = 0 and errors = 0, and the exit code is
0 — for every cap and stop-on-error setting. -/
theorem c5_desync_not_error (spike_insns : List SpikeInsn) (trace_insns : List TraceInsn)
    (max_insns : Nat) (stop_on_error : Bool) (hne : spike_insns ≠ [])
    (hdisj : ∀ sp ∈ spike_insns, ∀ tr ∈ trace_insns, sp.ip ≠ tr.ip) :
    check spike_insns trace_insns max_insns stop_on_error =
      (⟨0, trace_insns.length, 0, 0, trace_insns.length⟩,
       List.replicate trace_insns.length Diag.SYNC)
    ∧ exitCodeOf spike_insns trace_insns max_insns stop_on_error = 0 := by
  have h0 : 0 < spike_insns.length := List.length_pos.mpr hne
  have hrun := checkRunF_desync spike_insns trace_insns max_insns stop_on_error hdisj
    trace_insns.length ⟨0, 0, 0, 0, 0⟩ (by simp) (by simp) h0 rfl
  have hchk : check spike_insns trace_insns max_insns stop_on_error =
      (⟨0, trace_insns.length, 0, 0, trace_insns.length⟩,
       List.replicate trace_insns.length Diag.SYNC) := by
    unfold check
    simpa using hrun
  refine ⟨hchk, ?_⟩
  unfold exitCodeOf
  rw [hchk]
  simp

/-- Witness for C5 at concrete disjoint streams: two candidate entries are
burned through with two SYNC warnings and exit code 0. -/
theorem c5_desync_not_error_witness :
    check [⟨0x100, none, none⟩] [⟨0x4, 0, 0, [], []⟩, ⟨0x8, 0, 0, [], []⟩] 0 false =
      (⟨0, 2, 0, 0, 2⟩, List.replicate 2 Diag.SYNC)
    ∧ exitCodeOf [⟨0x100, none, none⟩] [⟨0x4, 0, 0, [], []⟩, ⟨0x8, 0, 0, [], []⟩] 0 false = 0 :=
  c5_desync_not_error [⟨0x100, none, none⟩] [⟨0x4, 0, 0, [], []⟩, ⟨0x8, 0, 0, [], []⟩]
    0 false (by decide) (by decide)

/-- C6: Checked-instruction cap semantics.  With cap `k > 0` at most `k`
matched pairs are ever checked; with cap 0 (and stop-on-error off) the loop
runs until one sequence is exhausted; and on the spec's Example 4 (cap 1
with 5 valid matched pairs available) exactly one instruction is checked,
the loop halts before the second pair (both cursors stop at 1), and the
exit code is decided by the first pair alone: a run whose second pair is
faulty still exits 0 under cap 1, though it exits 1 uncapped. -/
theorem c6_cap_semantics (spike_insns : List SpikeInsn) (trace_insns : List TraceInsn)
    (k : Nat) (stop_on_error : Bool) :
    (0 < k → (check spike_insns trace_insns k stop_on_error).1.checked ≤ k)
    ∧ (spike_insns.length ≤ (check spike_insns trace_insns 0 false).1.si ∨
       trace_insns.length ≤ (check spike_insns trace_insns 0 false).1.ti)
    ∧ check exampleRef5 exampleCand5 1 false = (⟨1, 1, 1, 0, 0⟩, [])
    ∧ exitCodeOf exampleRef5 exampleCand5 1 false = 0
    ∧ exitCodeOf exampleRef5 exampleCand5bad 1 false = 0
    ∧ exitCodeOf exampleRef5 exampleCand5bad 0 false = 1 := by
  refine ⟨?_, ?_, by decide, by decide, by decide, by decide⟩
  · intro hk
    exact checkRunF_checked_le spike_insns trace_insns k stop_on_error (by omega) _ _ (by simp)
  · exact checkRunF_exhausts spike_insns trace_insns _ _ (by simp)

/-- Witness for C6: under cap 1 the five-pair example checks at most one
instruction. -/
theorem c6_cap_semantics_witness :
    (check exampleRef5 exampleCand5 1 false).1.checked ≤ 1 :=
  (c6_cap_semantics exampleRef5 exampleCand5 1 false).1 (by decide)

/-- Modelled from the spec (§4.5.a): the inferred branch outcome — taken
exactly when a next reference pc exists and is neither `pc + 4` nor
`pc + 2`. -/
def inferredTaken (ip : Nat) (next_ip : Option Nat) : Bool :=
  match next_ip with
  | none => false
  | some nip => decide (nip ≠ ip + 4 ∧ nip ≠ ip + 2)

/-- Modelled from the spec (§8, round-trip correctness): one candidate
record synthesized from a reference record — same pc, `is_branch`/`taken`
set per the inference rule, and the load/store slots populated from the
reference's own addresses (zero slots are dropped, as the candidate-slot
data model prescribes). -/
def synthInsn (sp : SpikeInsn) (next_ip : Option Nat) : TraceInsn :=
  { ip := sp.ip
    is_branch := if inferredTaken sp.ip next_ip then 1 else 0
    branch_taken := if inferredTaken sp.ip next_ip then 1 else 0
    dst_mem := sp.store_addr.toList.filter (fun a => a ≠ 0)
    src_mem := sp.load_addr.toList.filter (fun a => a ≠ 0) }

/-- Modelled from the spec (§8): the candidate trace synthesized from a
whole reference log, in the same order. -/
def synth : List SpikeInsn → List TraceInsn
  | [] => []
  | sp :: rest => synthInsn sp (rest.head?.map SpikeInsn.ip) :: synth rest

theorem synth_length (l : List SpikeInsn) : (synth l).length = l.length := by
  induction l with
  | nil => rfl
  | cons a rest ih => simp [synth, ih]

theorem synth_getElem? :
    ∀ (l : List SpikeInsn) (i : Nat) (sp : SpikeInsn), l[i]? = some sp →
      (synth l)[i]? = some (synthInsn sp ((l[i + 1]?).map SpikeInsn.ip)) := by
  intro l
  induction l with
  | nil => intro i sp h; cases h
  | cons a rest ih =>
    intro i sp h
    cases i with
    | zero =>
      simp at h
      subst h
      simp [synth, List.head?_eq_getElem?]
    | succ i =>
      simp only [List.getElem?_cons_succ] at h ⊢
      simp only [synth, List.getElem?_cons_succ]
      exact ih i sp h

/-- The inferred value the checker computes agrees with the spec's
inference rule. -/
theorem spikeTaken_eq_inferred (ip : Nat) (nip : Option Nat) :
    spikeTaken ip nip = if inferredTaken ip nip then 1 else 0 := by
  rcases nip with _ | v <;> simp [spikeTaken, inferredTaken]

/-- A synthesized candidate record passes all three per-pair checks,
provided the reference's real addresses are nonzero. -/
theorem pairErrors_synth (sp : SpikeInsn) (nip : Option Nat)
    (hl : sp.load_addr ≠ some 0) (hs : sp.store_addr ≠ some 0) :
    pairErrors sp nip (synthInsn sp nip) = [] := by
  unfold pairErrors synthInsn
  rw [spikeTaken_eq_inferred]
  rcases hln : sp.load_addr with _ | a <;> rcases hsn : sp.store_addr with _ | b
  · simp
  · have hb : b ≠ 0 := by rintro rfl; exact hs hsn
    simp [hln, hsn, hb]
  · have ha : a ≠ 0 := by rintro rfl; exact hl hln
    simp [hln, hsn, ha]
  · have ha : a ≠ 0 := by rintro rfl; exact hl hln
    have hb : b ≠ 0 := by rintro rfl; exact hs hsn
    simp [hln, hsn, ha, hb]

/-- Checking a reference stream against its own synthesized candidate
never accumulates an error, from any aligned state. -/
theorem checkRunF_roundtrip (spike_insns : List SpikeInsn)
    (hnz : ∀ sp ∈ spike_insns, sp.load_addr ≠ some 0 ∧ sp.store_addr ≠ some 0) :
    ∀ n (s : CheckState), s.si = s.ti →
      (checkRunF spike_insns (synth spike_insns) 0 false n s).1.errors = s.errors := by
  intro n
  induction n with
  | zero => intro s hsi; rfl
  | succ n ih =>
    intro s hsi
    rw [checkRunF_succ]
    rcases hsp : spike_insns[s.si]? with _ | sp
    · rw [checkStep_oob _ _ _ _ _ (Or.inl hsp)]
    · have htr : (synth spike_insns)[s.ti]? =
          some (synthInsn sp ((spike_insns[s.si + 1]?).map SpikeInsn.ip)) := by
        rw [← hsi]
        exact synth_getElem? spike_insns s.si sp hsp
      have hlt := getElem?_some_lt _ _ _ hsp
      have hmem : sp ∈ spike_insns := by
        have h2 := Option.some.inj ((List.getElem?_eq_getElem hlt).symm.trans hsp)
        exact h2 ▸ List.getElem_mem hlt
      obtain ⟨hl, hst⟩ := hnz sp hmem
      have herrs := pairErrors_synth sp ((spike_insns[s.si + 1]?).map SpikeInsn.ip) hl hst
      rw [checkStep_match_noerr _ _ _ _ _ _ _ hsp htr (by simp) rfl herrs]
      show (checkRunF spike_insns (synth spike_insns) 0 false n
        ⟨s.si + 1, s.ti + 1, s.checked + 1, s.errors, s.warnings⟩).1.errors = s.errors
      exact ih _ (by simp [hsi])

/-- C4: Round-trip correctness.  For every reference sequence whose real
memory addresses are nonzero, the candidate synthesized from it (same pc
order, is_branch/taken per the inference rule, load/store slots from the
reference's own addresses) checks with zero errors and exit code 0. -/
theorem c4_roundtrip (spike_insns : List SpikeInsn)
    (hnz : ∀ sp ∈ spike_insns, sp.load_addr ≠ some 0 ∧ sp.store_addr ≠ some 0) :
    (check spike_insns (synth spike_insns) 0 false).1.errors = 0
    ∧ exitCodeOf spike_insns (synth spike_insns) 0 false = 0 := by
  have herr : (check spike_insns (synth spike_insns) 0 false).1.errors = 0 := by
    unfold check
    exact checkRunF_roundtrip spike_insns hnz (synth spike_insns).length ⟨0, 0, 0, 0, 0⟩ rfl
  exact ⟨herr, by simp [exitCodeOf, herr]⟩

/-- Witness for C4 on a concrete reference with a load, a store, and a
taken jump. -/
theorem c4_roundtrip_witness :
    (check [⟨0x100, some 0x2000, none⟩, ⟨0x104, none, some 0x3000⟩, ⟨0x200, none, none⟩]
      (synth [⟨0x100, some 0x2000, none⟩, ⟨0x104, none, some 0x3000⟩, ⟨0x200, none, none⟩])
      0 false).1.errors = 0 :=
  (c4_roundtrip [⟨0x100, some 0x2000, none⟩, ⟨0x104, none, some 0x3000⟩, ⟨0x200, none, none⟩]
    (by decide)).1

/-- Modelled from the spec (§5: "a checked-instruction cap and a
stop-on-error flag, both tested once per matched pair — never preemptive"):
a loop-iteration variant that tests the cap only after the cursors are
found to hold equal pcs (a matched pair), and never on resynchronization
iterations.  Used solely to compare the spec's cancellation discipline with
the source's. -/
def checkStepClaim (spike_insns : List SpikeInsn) (trace_insns : List TraceInsn)
    (max_insns : Nat) (stop_on_error : Bool) (s : CheckState) : StepRes :=
  match (spike_insns[s.si]?), (trace_insns[s.ti]?) with
  | some sp, some tr =>
    if sp.ip ≠ tr.ip then
      .cont ⟨s.si, s.ti + 1, s.checked, s.errors, s.warnings + 1⟩ [Diag.SYNC]
    else if max_insns ≠ 0 ∧ max_insns ≤ s.checked then
      .halt s []
    else
      match stop_on_error, pairErrors sp ((spike_insns[s.si + 1]?).map SpikeInsn.ip) tr with
      | true, e :: _ =>
        .halt ⟨s.si, s.ti, s.checked + 1, s.errors + 1, s.warnings⟩ [e]
      | _, errs =>
        .cont ⟨s.si + 1, s.ti + 1, s.checked + 1, s.errors + errs.length, s.warnings⟩ errs
  | _, _ => .halt s []

/-- The loop over `checkStepClaim`, with the same fuel discipline as
`checkRunF`. -/
def checkRunFClaim (spike_insns : List SpikeInsn) (trace_insns : List TraceInsn)
    (max_insns : Nat) (stop_on_error : Bool) : Nat → CheckState → CheckState × List Diag
  | 0, s => (s, [])
  | n + 1, s =>
    match checkStepClaim spike_insns trace_insns max_insns stop_on_error s with
    | .halt s' ds => (s', ds)
    | .cont s' ds =>
      let r := checkRunFClaim spike_insns trace_insns max_insns stop_on_error n s'
      (r.1, ds ++ r.2)

/-- The whole run of the spec-modelled cancellation discipline. -/
def checkClaim (spike_insns : List SpikeInsn) (trace_insns : List TraceInsn)
    (max_insns : Nat) (stop_on_error : Bool) : CheckState × List Diag :=
  checkRunFClaim spike_insns trace_insns max_insns stop_on_error
    trace_insns.length ⟨0, 0, 0, 0, 0⟩

/-- C7 counterexample.  Reference pcs [0x4, 0xC], candidate pcs
[0x4, 0x8, 0xC], cap 1: after the first matched pair the source tests the
cap at the top of the next iteration — an iteration whose cursors hold the
mismatching pcs 0xC and 0x8, i.e. not a matched pair — and halts there
preemptively: no SYNC is emitted and warnings stays 0, with the candidate
cursor left at 1.  Under the claim's discipline (cap tested only once per
matched pair, never on other iterations) that iteration is a SYNC skip, so
the run ends with warnings = 1 and the SYNC emitted.  The two disciplines
are therefore observably different, refuting the claim as stated. -/
theorem c7_cancellation_counterexample :
    check [⟨0x4, none, none⟩, ⟨0xC, none, none⟩]
        [⟨0x4, 0, 0, [], []⟩, ⟨0x8, 0, 0, [], []⟩, ⟨0xC, 0, 0, [], []⟩] 1 false =
      (⟨1, 1, 1, 0, 0⟩, [])
    ∧ checkClaim [⟨0x4, none, none⟩, ⟨0xC, none, none⟩]
        [⟨0x4, 0, 0, [], []⟩, ⟨0x8, 0, 0, [], []⟩, ⟨0xC, 0, 0, [], []⟩] 1 false =
      (⟨1, 2, 1, 0, 1⟩, [Diag.SYNC])
    ∧ (check [⟨0x4, none, none⟩, ⟨0xC, none, none⟩]
        [⟨0x4, 0, 0, [], []⟩, ⟨0x8, 0, 0, [], []⟩, ⟨0xC, 0, 0, [], []⟩] 1 false).1.warnings ≠
      (checkClaim [⟨0x4, none, none⟩, ⟨0xC, none, none⟩]
        [⟨0x4, 0, 0, [], []⟩, ⟨0x8, 0, 0, [], []⟩, ⟨0xC, 0, 0, [], []⟩] 1 false).1.warnings := by
  refine ⟨by decide, by decide, by decide⟩

/-- C7 (amended): the cap is tested at the top of every iteration — with
both cursors in bounds, a reached cap halts the loop at once, matched pair
or not; when stop-on-error is enabled a matched pair with at least one
error halts immediately after that first error with exactly one error
counted and emitted; and a SYNC iteration never halts the loop. -/
theorem c7_cancellation_amended (spike_insns : List SpikeInsn) (trace_insns : List TraceInsn)
    (max_insns : Nat) (stop_on_error : Bool) (s : CheckState) (sp : SpikeInsn) (tr : TraceInsn)
    (hsp : spike_insns[s.si]? = some sp) (htr : trace_insns[s.ti]? = some tr) :
    (max_insns ≠ 0 → max_insns ≤ s.checked →
      checkStep spike_insns trace_insns max_insns stop_on_error s = .halt s [])
    ∧ (¬(max_insns ≠ 0 ∧ max_insns ≤ s.checked) → sp.ip ≠ tr.ip →
      checkStep spike_insns trace_insns max_insns stop_on_error s =
        .cont ⟨s.si, s.ti + 1, s.checked, s.errors, s.warnings + 1⟩ [Diag.SYNC])
    ∧ (∀ e rest, ¬(max_insns ≠ 0 ∧ max_insns ≤ s.checked) → sp.ip = tr.ip →
        pairErrors sp ((spike_insns[s.si + 1]?).map SpikeInsn.ip) tr = e :: rest →
        checkStep spike_insns trace_insns max_insns true s =
          .halt ⟨s.si, s.ti, s.checked + 1, s.errors + 1, s.warnings⟩ [e]) :=
  ⟨fun h1 h2 => checkStep_cap _ _ _ _ _ _ _ hsp htr h1 h2,
   fun hcap hip => checkStep_sync _ _ _ _ _ _ _ hsp htr hcap hip,
   fun e rest hcap hip herrs => checkStep_match_stop _ _ _ _ _ _ e rest hsp htr hcap hip herrs⟩

/-- Witness for the amended C7: with the cap already reached, the very
next iteration halts even though its cursors hold mismatching pcs. -/
theorem c7_cancellation_amended_witness :
    checkStep [⟨0x4, none, none⟩] [⟨0x8, 0, 0, [], []⟩] 1 false ⟨0, 0, 1, 0, 0⟩ =
      .halt ⟨0, 0, 1, 0, 0⟩ [] :=
  (c7_cancellation_amended [⟨0x4, none, none⟩] [⟨0x8, 0, 0, [], []⟩] 1 false
    ⟨0, 0, 1, 0, 0⟩ ⟨0x4, none, none⟩ ⟨0x8, 0, 0, [], []⟩ (by decide) (by decide)).1
    (by decide) (by decide)

/-- C9: Parse leniency.  Both parsers are total functions on their input
lines (no parse failure exists to raise): a line on which the grammar fails
is silently dropped wherever it sits, an empty input parses to the empty
record sequence, and a run whose reference (or candidate) side parsed to
nothing checks zero instructions, reports errors = 0 and exits 0 rather
than escalating. -/
theorem c9_parse_leniency :
    (∀ (pre post : List (List Char)) (l : List Char), parseSpikeLine l = none →
      parse_spike (pre ++ l :: post) = parse_spike (pre ++ post))
    ∧ (∀ (pre post : List (List Char)) (l : List Char), parseDebugLine l = none →
      parse_debug (pre ++ l :: post) = parse_debug (pre ++ post))
    ∧ (∀ lines, (∀ l ∈ lines, parseSpikeLine l = none) → parse_spike lines = [])
    ∧ (∀ lines, (∀ l ∈ lines, parseDebugLine l = none) → parse_debug lines = [])
    ∧ parse_spike [] = []
    ∧ parse_debug [] = []
    ∧ (∀ (trace_insns : List TraceInsn) (max_insns : Nat) (stop_on_error : Bool),
        check [] trace_insns max_insns stop_on_error = (⟨0, 0, 0, 0, 0⟩, [])
        ∧ exitCodeOf [] trace_insns max_insns stop_on_error = 0)
    ∧ (∀ (spike_insns : List SpikeInsn) (max_insns : Nat) (stop_on_error : Bool),
        check spike_insns [] max_insns stop_on_error = (⟨0, 0, 0, 0, 0⟩, [])
        ∧ exitCodeOf spike_insns [] max_insns stop_on_error = 0) := by
  have hempty : ∀ (trace_insns : List TraceInsn) (max_insns : Nat) (stop_on_error : Bool),
      check [] trace_insns max_insns stop_on_error = (⟨0, 0, 0, 0, 0⟩, []) := by
    intro trace_insns max_insns stop_on_error
    unfold check
    cases htl : trace_insns.length with
    | zero => rfl
    | succ n =>
      rw [checkRunF_succ, checkStep_oob _ _ _ _ _ (Or.inl (by simp))]
  refine ⟨?_, ?_, ?_, ?_, rfl, rfl, ?_, ?_⟩
  · intro pre post l h
    simp [parse_spike, List.filterMap_append, List.filterMap_cons, h]
  · intro pre post l h
    simp [parse_debug, List.filterMap_append, List.filterMap_cons, h]
  · intro lines h
    exact List.filterMap_eq_nil_iff.mpr h
  · intro lines h
    exact List.filterMap_eq_nil_iff.mpr h
  · intro trace_insns max_insns stop_on_error
    refine ⟨hempty _ _ _, ?_⟩
    simp [exitCodeOf, hempty]
  · intro spike_insns max_insns stop_on_error
    exact ⟨rfl, rfl⟩

/-- Witness for C9: a malformed line is dropped by both parsers, and the
resulting empty streams check cleanly. -/
theorem c9_parse_leniency_witness :
    parse_spike [("hello world".toList)] = []
    ∧ parse_debug [("hello world".toList)] = []
    ∧ check [] [] 0 false = (⟨0, 0, 0, 0, 0⟩, []) :=
  ⟨c9_parse_leniency.2.2.1 [("hello world".toList)] (by decide),
   c9_parse_leniency.2.2.2.1 [("hello world".toList)] (by decide),
   (c9_parse_leniency.2.2.2.2.2.2.1 [] 0 false).1⟩

/-- C10: Every parsed reference record carries at most one memory address:
`parse_spike` inspects only the first `mem` clause of a line and sets the
load address (one value) or the store address (two values) but never both;
a second `mem` clause on the same line is ignored, as the concrete
two-clause line shows. -/
theorem c10_single_mem (lines : List (List Char)) :
    (∀ r ∈ parse_spike lines, ¬(r.load_addr.isSome ∧ r.store_addr.isSome))
    ∧ parseSpikeLine ("core 0: 3 0x100 (0x1) mem 0x2000 mem 0x3000 0x5".toList) =
        some ⟨0x100, some 0x2000, none⟩ := by
  constructor
  · intro r hr
    rw [parse_spike, List.mem_filterMap] at hr
    obtain ⟨l, _, hl⟩ := hr
    unfold parseSpikeLine at hl
    rcases hms : matchSpike (stripList l) with _ | ⟨ip, rest⟩ <;> rw [hms] at hl
    · cases hl
    · dsimp only at hl
      rcases hsm : searchMem rest with _ | ⟨addr, od⟩ <;> rw [hsm] at hl
      · cases hl
        simp
      · rcases od with _ | d <;> cases hl <;> simp
  · decide

/-- Witness for C10: the record parsed from the two-clause line holds a
load address only. -/
theorem c10_single_mem_witness :
    ¬((⟨0x100, some 0x2000, none⟩ : SpikeInsn).load_addr.isSome ∧
      (⟨0x100, some 0x2000, none⟩ : SpikeInsn).store_addr.isSome) :=
  (c10_single_mem [("core 0: 3 0x100 (0x1) mem 0x2000 mem 0x3000 0x5".toList)]).1
    ⟨0x100, some 0x2000, none⟩ (by decide)

end ChampSimCheck
